import Mathlib

/-!
Shallow embedding of harness-community/drone-artifactory-docker-buildinfo
(src/main.go, plus the older variant kept as src/unnamed/part_000) and
verification of the frozen claims about it.  Go strings are modelled as
Lean String / List Char, machine integers as Nat, fallible Go functions as
Except or as explicit (value, error option) pairs when the Go code returns
a nil error unconditionally, and the HTTP world as explicit response
inputs.  A Go runtime panic (out-of-range slice or index) is modelled as a
dedicated constructor of the result type.
-/

namespace DroneBuildInfo

/-- Embedding of the Go struct Args (src/main.go lines 19 to 41): the
plugin configuration, one string field per environment variable, with the
Go zero value "" as the default for every field. -/
structure Args where
  BuildNumber : String := ""
  BuildName : String := ""
  BuildURL : String := ""
  DockerImage : String := ""
  URL : String := ""
  AccessToken : String := ""
  Username : String := ""
  Password : String := ""
  APIKey : String := ""
  Insecure : String := ""
  PEMFileContents : String := ""
  PEMFilePath : String := ""
  Level : String := ""
  GitPath : String := ""
  CommitSha : String := ""
  RepoURL : String := ""
  BranchName : String := ""
  TagName : String := ""
  CommitMessage : String := ""
  DefaultPath : String := ""
  BuildTrigger : String := ""
deriving DecidableEq

/-- The authentication material that setAuthHeaders attaches to an HTTP
request: either a bearer Authorization header or basic auth. -/
inductive AuthHeader where
  | bearer (token : String)
  | basic (user pass : String)
deriving DecidableEq

/-- Embedding of setAuthHeaders (src/main.go lines 554 to 566): access
token first, then username plus API key as password, then username plus
password, else an error. -/
def setAuthHeaders (args : Args) : Except String AuthHeader :=
  if args.AccessToken ≠ "" then
    .ok (.bearer args.AccessToken)
  else if args.APIKey ≠ "" ∧ args.Username ≠ "" then
    .ok (.basic args.Username args.APIKey)
  else if args.Username ≠ "" ∧ args.Password ≠ "" then
    .ok (.basic args.Username args.Password)
  else
    .error "no authentication method provided"

/-- Embedding of setAuthParams (src/main.go lines 294 to 308): username
plus password first, then username plus API key as password, then access
token; with no credentials it only logs and returns the list unchanged.
The Go function returns a nil error on every path, modelled as the Option
String component being none. -/
def setAuthParams (cmdArgs : List String) (args : Args) : List String × Option String :=
  if args.Username ≠ "" ∧ args.Password ≠ "" then
    (cmdArgs ++ ["--user=" ++ args.Username, "--password=" ++ args.Password], none)
  else if args.APIKey ≠ "" ∧ args.Username ≠ "" then
    (cmdArgs ++ ["--user=" ++ args.Username, "--password=" ++ args.APIKey], none)
  else if args.AccessToken ≠ "" then
    (cmdArgs ++ ["--access-token=" ++ args.AccessToken], none)
  else
    (cmdArgs, none)

/-- State of the polling loop of pollForBuildInfo (src/main.go lines 362
to 385): seconds elapsed since the reconciliation phase started, and the
current backoff in seconds. -/
structure PollState where
  elapsed : Nat
  backoff : Nat
deriving DecidableEq

/-- Terminal outcome of the polling loop. -/
inductive PollOutcome where
  | found
  | timedOut
deriving DecidableEq

/-- Result of one iteration of the polling loop: either the loop exits
with an outcome, or it continues with a new state. -/
inductive PollStep where
  | exit (o : PollOutcome)
  | next (s : PollState)
deriving DecidableEq

/-- The backoff update at the bottom of the loop body (src/main.go lines
379 to 383): double, then clamp to the 5 second maximum. -/
def nextBackoff (b : Nat) : Nat :=
  let b2 := b * 2
  if 5 < b2 then 5 else b2

/-- One iteration of the for/select loop of pollForBuildInfo (src/main.go
lines 366 to 385), with the context deadline modelled as a Nat bound on
elapsed seconds and the checkBuildInfoExists call abstracted to its
success bit.  The select observes ctx.Done only at the top of the
iteration; on a failed check the loop calls time.Sleep(backoff), which
sleeps the full backoff regardless of how much of the deadline remains,
and then performs the backoff update before the next iteration. -/
def pollIter (deadline : Nat) (s : PollState) (checkOk : Bool) : PollStep :=
  if deadline ≤ s.elapsed then .exit .timedOut
  else if checkOk then .exit .found
  else .next ⟨s.elapsed + s.backoff, nextBackoff s.backoff⟩

/-- Iterating pollIter over a finite list of check outcomes (one Bool per
attempt the environment would answer). -/
def pollRun (deadline : Nat) (checks : List Bool) (s : PollState) : PollStep :=
  match checks with
  | [] => .next s
  | c :: rest =>
    match pollIter deadline s c with
    | .exit o => .exit o
    | .next s2 => pollRun deadline rest s2

/-- The durations of the sleeps actually performed along a run of the
polling loop (same guards as pollIter, recording s.backoff at each sleep). -/
def pollSleeps (deadline : Nat) (checks : List Bool) (s : PollState) : List Nat :=
  match checks with
  | [] => []
  | c :: rest =>
    if deadline ≤ s.elapsed then []
    else if c then []
    else s.backoff :: pollSleeps deadline rest ⟨s.elapsed + s.backoff, nextBackoff s.backoff⟩

/-- The backoff in force before the n-th sleep of a run in which every
attempt fails: 1 second initially, then repeatedly doubled and capped. -/
def backoffSeq : Nat → Nat
  | 0 => 1
  | n + 1 => nextBackoff (backoffSeq n)

/-- Embedding of the principal reconciliation tail of Exec (src/main.go
lines 209 to 230): given the build trigger, the result of
pollForBuildInfo and the result of addPrincipalToBuildInfo (each none on
success, some message on failure), returns the value Exec returns for
this phase together with whether addPrincipalToBuildInfo was invoked.  A
poll failure is logged as a warning and Exec returns nil at once; an
addPrincipalToBuildInfo failure is logged as a warning; Exec then returns
nil. -/
def execPrincipalPhase (buildTrigger : String) (pollResult : Option String)
    (addResult : Option String) : Option String × Bool :=
  if buildTrigger ≠ "" then
    match pollResult with
    | some _ => (none, false)
    | none =>
      match addResult with
      | some _ => (none, true)
      | none => (none, true)
  else (none, false)

/-- The opening brace character, kept out of character literal syntax. -/
def lbrace : Char := Char.ofNat 123

/-- The closing brace character, kept out of character literal syntax. -/
def rbrace : Char := Char.ofNat 125

/-- JSON whitespace as accepted by the Go encoding/json package. -/
def isWsChar (c : Char) : Bool :=
  c = ' ' ∨ c = '\t' ∨ c = '\n' ∨ c = '\r'

/-- Drop leading JSON whitespace. -/
def skipWs : List Char → List Char
  | [] => []
  | c :: rest => if isWsChar c then skipWs rest else c :: rest

/-- ASCII lower casing, for the case-insensitive field matching of Go
json.Unmarshal into a struct. -/
def lowerChar (c : Char) : Char :=
  if 65 ≤ c.toNat ∧ c.toNat ≤ 90 then Char.ofNat (c.toNat + 32) else c

/-- Case-insensitive equality of names (ASCII fold, as strings.EqualFold
behaves on the ASCII names used here). -/
def eqFold : List Char → List Char → Bool
  | [], [] => true
  | a :: as, b :: bs => lowerChar a == lowerChar b && eqFold as bs
  | _, _ => false

/-- A JSON value as decoded by encoding/json into interface values:
objects keep their fields as a key ordered association list with unique
keys (duplicate keys collapse, the later one winning, as in a Go map). -/
inductive Json where
  | null
  | bool (b : Bool)
  | num (lit : String)
  | str (s : String)
  | arr (elems : List Json)
  | obj (fields : List (String × Json))

/-- First binding of a key in an association list (keys are unique in the
lists built here, so this is Go map lookup). -/
def lookupFirst : List (String × Json) → String → Option Json
  | [], _ => none
  | (k0, v0) :: rest, k => if k0 = k then some v0 else lookupFirst rest k

/-- Go map assignment m[k] = v on the association list representation:
replace the value in place if the key exists, otherwise append. -/
def mapInsert : List (String × Json) → String → Json → List (String × Json)
  | [], k, v => [(k, v)]
  | (k0, v0) :: rest, k, v =>
    if k0 = k then (k0, v) :: rest else (k0, v0) :: mapInsert rest k v

/-- Prepend a decoded object field to the fields decoded after it: if the
key reappears later the later binding wins, as when Go decodes a JSON
object into a map. -/
def consField (k : String) (v : Json) (l : List (String × Json)) : List (String × Json) :=
  if (lookupFirst l k).isSome then l else (k, v) :: l

/-- Value of a hexadecimal digit, if any. -/
def hexVal (c : Char) : Option Nat :=
  let n := c.toNat
  if 48 ≤ n ∧ n ≤ 57 then some (n - 48)
  else if 97 ≤ n ∧ n ≤ 102 then some (n - 87)
  else if 65 ≤ n ∧ n ≤ 70 then some (n - 55)
  else none

/-- Translation of a single character JSON escape. -/
def escChar (c : Char) : Option Char :=
  if c = '"' then some '"'
  else if c = '\\' then some '\\'
  else if c = '/' then some '/'
  else if c = 'b' then some (Char.ofNat 8)
  else if c = 'f' then some (Char.ofNat 12)
  else if c = 'n' then some '\n'
  else if c = 'r' then some '\r'
  else if c = 't' then some '\t'
  else none

/-- Parse the body of a JSON string after the opening quote; fuel bounds
the recursion, one unit per consumed character. -/
def parseStrB : Nat → List Char → Option (List Char × List Char)
  | 0, _ => none
  | fuel + 1, cs =>
    match cs with
    | [] => none
    | '"' :: rest => some ([], rest)
    | '\\' :: 'u' :: h1 :: h2 :: h3 :: h4 :: rest =>
      match hexVal h1, hexVal h2, hexVal h3, hexVal h4 with
      | some a, some b, some c, some d =>
        match parseStrB fuel rest with
        | some (s, r) => some (Char.ofNat (((a * 16 + b) * 16 + c) * 16 + d) :: s, r)
        | none => none
      | _, _, _, _ => none
    | '\\' :: e :: rest =>
      match escChar e with
      | some c =>
        match parseStrB fuel rest with
        | some (s, r) => some (c :: s, r)
        | none => none
      | none => none
    | '\\' :: [] => none
    | c :: rest =>
      match parseStrB fuel rest with
      | some (s, r) => some (c :: s, r)
      | none => none

/-- Longest leading run of decimal digits. -/
def spanDigits : List Char → List Char × List Char
  | [] => ([], [])
  | c :: rest =>
    if 48 ≤ c.toNat ∧ c.toNat ≤ 57 then
      let (ds, r) := spanDigits rest
      (c :: ds, r)
    else ([], c :: rest)

/-- Parse the fraction part of a JSON number, if present. -/
def parseFrac : List Char → Option (List Char × List Char)
  | '.' :: r =>
    match spanDigits r with
    | ([], _) => none
    | (ds, rest) => some ('.' :: ds, rest)
  | cs => some ([], cs)

/-- Parse the exponent part of a JSON number, if present. -/
def parseExp : List Char → Option (List Char × List Char)
  | c :: r =>
    if c = 'e' ∨ c = 'E' then
      match r with
      | s :: r2 =>
        if s = '+' ∨ s = '-' then
          match spanDigits r2 with
          | ([], _) => none
          | (ds, rest) => some (c :: s :: ds, rest)
        else
          match spanDigits (s :: r2) with
          | ([], _) => none
          | (ds, rest) => some (c :: ds, rest)
      | [] => none
    else some ([], c :: r)
  | [] => some ([], [])

/-- Parse a JSON number literal. -/
def parseNum (cs : List Char) : Option (List Char × List Char) :=
  let (sign, cs1) := match cs with | '-' :: r => (['-'], r) | _ => (([] : List Char), cs)
  match spanDigits cs1 with
  | ([], _) => none
  | (ds, cs2) =>
    match parseFrac cs2 with
    | none => none
    | some (fr, cs3) =>
      match parseExp cs3 with
      | none => none
      | some (ex, cs4) => some (sign ++ ds ++ fr ++ ex, cs4)

/-- What the recursive descent is currently parsing: a value, the
elements of a nonempty array, or the fields of a nonempty object. -/
inductive PMode where
  | val
  | elems
  | fields

/-- Result of one recursive descent step. -/
inductive PRet where
  | v (j : Json)
  | vs (js : List Json)
  | fl (l : List (String × Json))

/-- Recursive descent JSON reader (the grammar accepted by Go
encoding/json), written as a single fuel indexed function so that it is
structurally recursive and kernel reducible. -/
def parseF : Nat → PMode → List Char → Option (PRet × List Char)
  | 0, _, _ => none
  | fuel + 1, .val, cs =>
    match skipWs cs with
    | 'n' :: 'u' :: 'l' :: 'l' :: rest => some (.v .null, rest)
    | 't' :: 'r' :: 'u' :: 'e' :: rest => some (.v (.bool true), rest)
    | 'f' :: 'a' :: 'l' :: 's' :: 'e' :: rest => some (.v (.bool false), rest)
    | '"' :: rest =>
      match parseStrB (rest.length + 1) rest with
      | some (s, r) => some (.v (.str (String.mk s)), r)
      | none => none
    | '[' :: rest =>
      match skipWs rest with
      | ']' :: r2 => some (.v (.arr []), r2)
      | cs2 =>
        match parseF fuel .elems cs2 with
        | some (.vs js, r) => some (.v (.arr js), r)
        | _ => none
    | c :: rest =>
      if c = lbrace then
        match skipWs rest with
        | c2 :: r2 =>
          if c2 = rbrace then some (.v (.obj []), r2)
          else
            match parseF fuel .fields (c2 :: r2) with
            | some (.fl l, r) => some (.v (.obj l), r)
            | _ => none
        | [] => none
      else
        match parseNum (c :: rest) with
        | some (lit, r) => some (.v (.num (String.mk lit)), r)
        | none => none
    | [] => none
  | fuel + 1, .elems, cs =>
    match parseF fuel .val cs with
    | some (.v j, r) =>
      match skipWs r with
      | ',' :: r2 =>
        match parseF fuel .elems r2 with
        | some (.vs js, r3) => some (.vs (j :: js), r3)
        | _ => none
      | ']' :: r2 => some (.vs [j], r2)
      | _ => none
    | _ => none
  | fuel + 1, .fields, cs =>
    match skipWs cs with
    | '"' :: rest =>
      match parseStrB (rest.length + 1) rest with
      | some (k, r) =>
        match skipWs r with
        | ':' :: r2 =>
          match parseF fuel .val r2 with
          | some (.v v, r3) =>
            match skipWs r3 with
            | ',' :: r4 =>
              match parseF fuel .fields r4 with
              | some (.fl l, r5) => some (.fl (consField (String.mk k) v l), r5)
              | _ => none
            | c :: r4 =>
              if c = rbrace then some (.fl [(String.mk k, v)], r4) else none
            | [] => none
          | _ => none
        | _ => none
      | none => none
    | _ => none

/-- Go json.Unmarshal seen as a reader of one complete JSON document:
leading and trailing whitespace is allowed, trailing data is an error. -/
def jsonParse (s : String) : Option Json :=
  match parseF (2 * s.data.length + 4) .val s.data with
  | some (.v j, rest) => if skipWs rest = [] then some j else none
  | _ => none

/-- Upper case hexadecimal digit. -/
def hexUpper (n : Nat) : Char :=
  if n < 10 then Char.ofNat (48 + n) else Char.ofNat (55 + n)

/-- Escaping of one character inside a marshalled JSON string (Go
encoding/json defaults, HTML escaping included). -/
def encStrChar (c : Char) : List Char :=
  if c = '"' then ['\\', '"']
  else if c = '\\' then ['\\', '\\']
  else if c = '\n' then ['\\', 'n']
  else if c = '\r' then ['\\', 'r']
  else if c = '\t' then ['\\', 't']
  else if c.toNat < 32 then ['\\', 'u', '0', '0', hexUpper (c.toNat / 16), hexUpper (c.toNat % 16)]
  else if c = '<' ∨ c = '>' ∨ c = '&' then
    ['\\', 'u', '0', '0', hexUpper (c.toNat / 16), hexUpper (c.toNat % 16)]
  else [c]

/-- Marshalled form of a JSON string. -/
def encodeStr (s : String) : List Char :=
  '"' :: s.data.foldr (fun c acc => encStrChar c ++ acc) ['"']

/-- Byte order comparison of keys, as the sorted map keys of Go
json.Marshal. -/
def charListLe : List Char → List Char → Bool
  | [], _ => true
  | _ :: _, [] => false
  | a :: as, b :: bs =>
    if a.toNat < b.toNat then true
    else if b.toNat < a.toNat then false
    else charListLe as bs

/-- Insertion into a key sorted list of rendered fields. -/
def insField (p : String × List Char) : List (String × List Char) → List (String × List Char)
  | [] => [p]
  | q :: rest => if charListLe p.1.data q.1.data then p :: q :: rest else q :: insField p rest

/-- Key sort of rendered fields (Go json.Marshal sorts map keys). -/
def sortFields : List (String × List Char) → List (String × List Char)
  | [] => []
  | p :: rest => insField p (sortFields rest)

/-- Comma joined concatenation. -/
def joinComma : List (List Char) → List Char
  | [] => []
  | [x] => x
  | x :: y :: rest => x ++ ',' :: joinComma (y :: rest)

mutual

/-- Rendering of a JSON value, compact and with object keys sorted, as Go
json.Marshal renders decoded interface values. -/
def serVal : Json → List Char
  | .null => "null".data
  | .bool true => "true".data
  | .bool false => "false".data
  | .num lit => lit.data
  | .str s => encodeStr s
  | .arr xs => '[' :: joinComma (serList xs) ++ [']']
  | .obj fs => lbrace :: joinComma ((sortFields (serFields fs)).map Prod.snd) ++ [rbrace]

/-- Rendering of the elements of an array. -/
def serList : List Json → List (List Char)
  | [] => []
  | x :: xs => serVal x :: serList xs

/-- Rendering of the fields of an object, keyed for sorting. -/
def serFields : List (String × Json) → List (String × List Char)
  | [] => []
  | p :: fs => (p.1, encodeStr p.1 ++ ':' :: serVal p.2) :: serFields fs

end

/-- Go json.Marshal of a decoded JSON value. -/
def jsonSerialize (j : Json) : String :=
  String.mk (serVal j)

/-- Go json.Unmarshal into map[string]interface: the document must be a
JSON object (a null document leaves the map nil, read as empty). -/
def unmarshalToMap (s : String) : Except String (List (String × Json)) :=
  match jsonParse s with
  | none => .error "invalid JSON"
  | some (.obj fs) => .ok fs
  | some .null => .ok []
  | some _ => .error "cannot unmarshal value into map"

/-- Embedding of the Go struct Artifact (src/main.go lines 44 to 46): a
Docker image artifact carrying its SHA256 hash, with the Go zero value as
default. -/
structure Artifact where
  sha256 : String := ""
deriving DecidableEq

/-- Decoding of one object field into the Artifact struct, as Go
json.Unmarshal matches object keys to struct fields: the name (the json
tag sha256) is matched case-insensitively, a null value leaves the field
unchanged, a non-string value is an error, unknown keys are ignored. -/
def setArtifactField (a : Artifact) (k : String) (v : Json) : Except String Artifact :=
  if eqFold k.data ['s', 'h', 'a', '2', '5', '6'] then
    match v with
    | .str s => .ok { sha256 := s }
    | .null => .ok a
    | _ => .error "cannot unmarshal value into string field sha256"
  else .ok a

/-- Fold the decoded fields of one object into an Artifact. -/
def artifactOfFields : Artifact → List (String × Json) → Except String Artifact
  | a, [] => .ok a
  | a, (k, v) :: rest =>
    match setArtifactField a k v with
    | .ok a2 => artifactOfFields a2 rest
    | .error e => .error e

/-- Go json.Unmarshal of one array element into an Artifact: an object is
decoded field by field, null gives the zero struct, anything else is an
error. -/
def unmarshalArtifact (j : Json) : Except String Artifact :=
  match j with
  | .obj fs => artifactOfFields {} fs
  | .null => .ok {}
  | _ => .error "cannot unmarshal value into Artifact"

/-- Decode every element of the array. -/
def artifactsOfList : List Json → Except String (List Artifact)
  | [] => .ok []
  | j :: rest =>
    match unmarshalArtifact j with
    | .error e => .error e
    | .ok a =>
      match artifactsOfList rest with
      | .ok as2 => .ok (a :: as2)
      | .error e => .error e

/-- Go json.Unmarshal into a slice of Artifact: the document must be a
JSON array (a null document leaves the slice nil, read as empty). -/
def unmarshalArtifacts (s : String) : Except String (List Artifact) :=
  match jsonParse s with
  | none => .error "invalid JSON"
  | some .null => .ok []
  | some (.arr xs) => artifactsOfList xs
  | some _ => .error "cannot unmarshal value into Artifact list"

/-- Does the line begin with the character opening a JSON array, as the
strings.HasPrefix check of extractSha256FromOutput asks. -/
def lineStartsBracket (l : List Char) : Bool :=
  match l with
  | '[' :: _ => true
  | _ => false

/-- The suffix of the line list from the first line beginning with the
array opener, if any (the startIndex scan of extractSha256FromOutput). -/
def firstJsonSuffix : List (List Char) → Option (List (List Char))
  | [] => none
  | l :: rest => if lineStartsBracket l then some (l :: rest) else firstJsonSuffix rest

/-- Go strings.Split on a single character separator. -/
def splitOnChar (sep : Char) : List Char → List (List Char)
  | [] => [[]]
  | c :: rest =>
    if c = sep then [] :: splitOnChar sep rest
    else
      match splitOnChar sep rest with
      | [] => [[c]]
      | seg :: segs => (c :: seg) :: segs

/-- Go strings.Join with a single character separator. -/
def joinWith (sep : Char) : List (List Char) → List Char
  | [] => []
  | [x] => x
  | x :: y :: rest => x ++ sep :: joinWith sep (y :: rest)

/-- Embedding of extractSha256FromOutput (src/main.go lines 234 to 266)
on the already split lines: find the first line beginning with the array
opener, join from it on, decode the artifact array, take the first
record. -/
def extractFromLines (lines : List (List Char)) : Except String String :=
  match firstJsonSuffix lines with
  | none => .error "could not find JSON output in the command response"
  | some suffix =>
    match unmarshalArtifacts (String.mk (joinWith '\n' suffix)) with
    | .error e => .error ("error parsing JSON: " ++ e)
    | .ok [] => .error "no artifacts found in JFrog output"
    | .ok (a :: _) => .ok a.sha256

/-- Embedding of extractSha256FromOutput (src/main.go lines 234 to 266). -/
def extractSha256FromOutput (output : String) : Except String String :=
  extractFromLines (splitOnChar '\n' output.data)

/-- The parts of a parsed URL this program reads and writes.  Modelled
from the Go net/url URL struct, restricted to scheme, host and path. -/
structure GoURL where
  scheme : String
  host : String
  path : String
deriving DecidableEq

/-- Split a URL string at the literal scheme separator, if present. -/
def splitScheme : List Char → Option (List Char × List Char)
  | [] => none
  | ':' :: '/' :: '/' :: rest => some ([], rest)
  | c :: rest =>
    match splitScheme rest with
    | some (s, r) => some (c :: s, r)
    | none => none

/-- The host part up to the first slash, keeping the slash in the path. -/
def spanHost : List Char → List Char × List Char
  | [] => ([], [])
  | '/' :: rest => ([], '/' :: rest)
  | c :: rest =>
    let (h, p) := spanHost rest
    (c :: h, p)

/-- Modelled subset of Go net/url Parse for the URL shapes this plugin
receives: an authority form string scheme://host/path yields its three
parts, and a string with no scheme separator parses with empty scheme and
host and the whole input as path.  Userinfo, query, fragment and opaque
forms are outside the modelled domain. -/
def urlParse (s : String) : GoURL :=
  match splitScheme s.data with
  | some (sch, rest) =>
    let (h, p) := spanHost rest
    ⟨String.mk sch, String.mk h, String.mk p⟩
  | none => ⟨"", "", s⟩

/-- Modelled subset of Go net/url URL.String on the same domain: scheme
and host are printed back with the separator when the scheme is present,
otherwise the path alone. -/
def urlString (u : GoURL) : String :=
  if u.scheme ≠ "" then u.scheme ++ "://" ++ u.host ++ u.path else u.path

/-- Does cs start with seg. -/
def startsSeg : List Char → List Char → Bool
  | [], _ => true
  | _ :: _, [] => false
  | a :: as, b :: bs => a == b && startsSeg as bs

/-- Go strings.Split on a multi character separator, fuel indexed (one
unit of fuel per consumed character; the separator here is nonempty). -/
def splitOnSegF : Nat → List Char → List Char → List (List Char)
  | 0, _, cs => [cs]
  | fuel + 1, seg, cs =>
    match cs with
    | [] => [[]]
    | c :: rest =>
      if startsSeg seg cs then
        [] :: splitOnSegF fuel seg (cs.drop seg.length)
      else
        match splitOnSegF fuel seg rest with
        | [] => [[c]]
        | seg0 :: segs => (c :: seg0) :: segs

/-- Go strings.Split on a multi character separator. -/
def splitOnSeg (seg : List Char) (cs : List Char) : List (List Char) :=
  splitOnSegF (cs.length + 1) seg cs

/-- Embedding of sanitizeURL (src/main.go lines 568 to 585): parse the
URL, split its path on the literal /artifactory, and force the path to
the first part followed by /artifactory/.  The Go function logs when the
scheme or host is empty or when the path holds no /artifactory, but it
does not return on those paths, so the error component of its result is
always nil, modelled as the Option String component being none. -/
def sanitizeURL (inputURL : String) : String × Option String :=
  let parsedURL := urlParse inputURL
  let parts := splitOnSeg "/artifactory".data parsedURL.path.data
  let firstPart := match parts with | [] => ([] : List Char) | p :: _ => p
  (urlString { parsedURL with path := String.mk firstPart ++ "/artifactory/" }, none)

/-- Embedding of sanitizeURL from the older variant
(src/unnamed/part_000 lines 233 to 250), which does return errors: an
empty scheme or host is an invalid URL, a path with no /artifactory is an
error, otherwise the path is forced to the first part followed by
/artifactory/. -/
def sanitizeURL_v0 (inputURL : String) : Except String String :=
  let parsedURL := urlParse inputURL
  if parsedURL.scheme = "" ∨ parsedURL.host = "" then
    .error ("invalid URL: " ++ inputURL)
  else
    let parts := splitOnSeg "/artifactory".data parsedURL.path.data
    if parts.length < 2 then
      .error ("url does not contain /artifactory: " ++ inputURL)
    else
      let firstPart := match parts with | [] => ([] : List Char) | p :: _ => p
      .ok (urlString { parsedURL with path := String.mk firstPart ++ "/artifactory/" })

/-- Outcome of the Go parseDockerImage of src/main.go: either the four
returned values (the error is always nil there), or a runtime panic. -/
inductive ParseOutcome where
  | ret (repo imageName imageTag : String) (err : Option String)
  | panicked
deriving DecidableEq

/-- Split at the last colon: the text before it and the text after it. -/
def splitLastColon : List Char → Option (List Char × List Char)
  | [] => none
  | c :: rest =>
    match splitLastColon rest with
    | some (pre, post) => some (c :: pre, post)
    | none => if c = ':' then some ([], rest) else none

/-- Number of dots, as strings.Count with a one character substring. -/
def countDots : List Char → Nat
  | [] => 0
  | c :: rest => (if c = '.' then 1 else 0) + countDots rest

/-- Embedding of parseDockerImage (src/main.go lines 311 to 341).  The Go
function logs on a missing colon or a short path but does not return
early: with no colon at all the slice expression with the index -1 panics
at run time, and with a dotted single segment path the index expression
pathParts[1] panics; on every returning path the error is nil. -/
def parseDockerImage (dockerImage : String) : ParseOutcome :=
  match splitLastColon dockerImage.data with
  | none => .panicked
  | some (imagePath, imageTag) =>
    let pathParts := splitOnChar '/' imagePath
    let first := match pathParts with | [] => ([] : List Char) | p :: _ => p
    if 2 ≤ countDots first then
      match pathParts with
      | _ :: p1 :: rest =>
        .ret (String.mk p1) (String.mk (joinWith '/' rest)) (String.mk imageTag) none
      | _ => .panicked
    else
      match pathParts with
      | p0 :: rest =>
        .ret (String.mk p0) (String.mk (joinWith '/' rest)) (String.mk imageTag) none
      | [] => .panicked

/-- Embedding of parseDockerImage from the older variant
(src/unnamed/part_000 lines 200 to 230), which returns input errors for a
missing colon or a path of fewer than two segments. -/
def parseDockerImage_v0 (dockerImage : String) : Except String (String × String × String) :=
  match splitLastColon dockerImage.data with
  | none => .error ("invalid Docker image format: " ++ dockerImage)
  | some (imagePath, imageTag) =>
    let pathParts := splitOnChar '/' imagePath
    if pathParts.length < 2 then
      .error ("invalid Docker image format: " ++ dockerImage)
    else
      let first := match pathParts with | [] => ([] : List Char) | p :: _ => p
      if 2 ≤ countDots first then
        match pathParts with
        | _ :: p1 :: rest =>
          .ok (String.mk p1, String.mk (joinWith '/' rest), String.mk imageTag)
        | _ => .error ("invalid Docker image format: " ++ dockerImage)
      else
        match pathParts with
        | p0 :: rest =>
          .ok (String.mk p0, String.mk (joinWith '/' rest), String.mk imageTag)
        | [] => .error ("invalid Docker image format: " ++ dockerImage)

/-- What one HTTP round trip gives back to the caller: either a transport
error from client.Do, or a response with its status code and body. -/
inductive HTTPResult where
  | netError (msg : String)
  | response (status : Nat) (body : String)
deriving DecidableEq

/-- Embedding of checkBuildInfoExists (src/main.go lines 389 to 437): the
request carries the authentication headers (an auth failure aborts before
any call), a transport error or a status other than 200 is an error, the
body must decode as a JSON object holding a buildInfo object whose number
field is a string equal to the expected build number. -/
def checkBuildInfoExists (args : Args) (resp : HTTPResult) : Except String Unit :=
  match setAuthHeaders args with
  | .error e => .error e
  | .ok _ =>
    match resp with
    | .netError m => .error m
    | .response status body =>
      if status ≠ 200 then
        .error ("build info not available yet: status code " ++ toString status)
      else
        match unmarshalToMap body with
        | .error e => .error ("error parsing build info: " ++ e)
        | .ok fields =>
          match lookupFirst fields "buildInfo" with
          | some (.obj bfs) =>
            match lookupFirst bfs "number" with
            | some (.str n) =>
              if n = args.BuildNumber then .ok ()
              else .error ("build number mismatch or missing: expected " ++ args.BuildNumber)
            | _ => .error ("build number mismatch or missing: expected " ++ args.BuildNumber)
          | _ => .error "buildInfo field not found or has unexpected format"

/-- Field of a JSON value when it is an object. -/
def jGet (j : Json) (k : String) : Option Json :=
  match j with
  | .obj fs => lookupFirst fs k
  | _ => none

/-- Modelled from the spec: the visibility success criterion in its own
words, HTTP 200, a body that parses as JSON, and a payload containing a
buildInfo object whose number field is a string equal to the expected
build number. -/
def pollVisibleSpec (args : Args) (resp : HTTPResult) : Prop :=
  ∃ body j bfs n,
    resp = .response 200 body ∧
    jsonParse body = some j ∧
    jGet j "buildInfo" = some (.obj bfs) ∧
    lookupFirst bfs "number" = some (.str n) ∧
    n = args.BuildNumber

/-- UTF-8 bytes of one character. -/
def utf8Bytes (c : Char) : List Nat :=
  let n := c.toNat
  if n < 128 then [n]
  else if n < 2048 then [192 + n / 64, 128 + n % 64]
  else if n < 65536 then [224 + n / 4096, 128 + (n / 64) % 64, 128 + n % 64]
  else [240 + n / 262144, 128 + (n / 4096) % 64, 128 + (n / 64) % 64, 128 + n % 64]

/-- One character under Go net/url QueryEscape: unreserved characters
stand, a space becomes a plus, everything else is percent encoded byte by
byte. -/
def queryEscapeChar (c : Char) : List Char :=
  let n := c.toNat
  if (65 ≤ n ∧ n ≤ 90) ∨ (97 ≤ n ∧ n ≤ 122) ∨ (48 ≤ n ∧ n ≤ 57) ∨
      c = '-' ∨ c = '_' ∨ c = '.' ∨ c = '~' then [c]
  else if c = ' ' then ['+']
  else (utf8Bytes c).foldr (fun b acc => '%' :: hexUpper (b / 16) :: hexUpper (b % 16) :: acc) []

/-- Go net/url QueryEscape over a string. -/
def queryEscape (s : String) : List Char :=
  s.data.foldr (fun c acc => queryEscapeChar c ++ acc) []

/-- The strings.ReplaceAll of plus by percent twenty applied after the
query escaping (src/main.go lines 358 to 359 and 451 to 452). -/
def replacePlusPct (cs : List Char) : List Char :=
  cs.foldr (fun c acc => if c = '+' then '%' :: '2' :: '0' :: acc else c :: acc) []

/-- The build coordinate encoding used for the REST URLs: QueryEscape
with spaces as percent twenty. -/
def encodeCoord (s : String) : String :=
  String.mk (replacePlusPct (queryEscape s))

/-- Go strings.TrimSuffix of one trailing slash. -/
def trimSlashSuffix (s : String) : String :=
  if s.data.getLast? = some '/' then String.mk s.data.dropLast else s

/-- The build info resource URL as pollForBuildInfo computes it
(src/main.go lines 352 to 360): sanitized URL without its trailing slash,
then /api/build/ and the encoded build name and number. -/
def pollApiURL (args : Args) : String :=
  let sanitized := trimSlashSuffix (sanitizeURL args.URL).1
  sanitized ++ "/api/build/" ++ encodeCoord args.BuildName ++ "/" ++ encodeCoord args.BuildNumber

/-- Embedding of the Go struct BuildPrincipal (src/main.go lines 343 to
345). -/
structure BuildPrincipal where
  Principal : String
deriving DecidableEq

/-- An HTTP PUT request as addPrincipalToBuildInfo issues it. -/
structure PutCall where
  url : String
  contentType : String
  body : String
deriving DecidableEq

/-- The two requests addPrincipalToBuildInfo makes when it reaches the
update: the GET resource it fetched and the PUT it issued. -/
structure ReconcileCall where
  getUrl : String
  putCall : PutCall
deriving DecidableEq

/-- Embedding of addPrincipalToBuildInfo (src/main.go lines 439 to 551):
sanitize the URL (whose error component is always nil), build the
resource URL, attach authentication, fetch the build info, require status
200 and a JSON object body holding a buildInfo object, set its principal
field to the supplied identity, and PUT the marshalled buildInfo object
alone to the api/build endpoint with the JSON content type; 200, 204 and
201 are accepted, any other status is an error.  The two HTTP responses
are inputs from the environment; on success the calls made are
returned. -/
def addPrincipalToBuildInfo (args : Args) (principal : String)
    (fetchResp putResp : HTTPResult) : Except String ReconcileCall :=
  match sanitizeURL args.URL with
  | (_, some e) => .error ("error sanitizing URL: " ++ e)
  | (s0, none) =>
    let sanitized := trimSlashSuffix s0
    let apiURL := sanitized ++ "/api/build/" ++ encodeCoord args.BuildName ++ "/" ++
      encodeCoord args.BuildNumber
    match setAuthHeaders args with
    | .error e => .error e
    | .ok _ =>
      match fetchResp with
      | .netError m => .error ("error executing request: " ++ m)
      | .response status body =>
        if status ≠ 200 then
          .error ("API request failed with status: " ++ toString status ++
            " - check logs for details")
        else
          match unmarshalToMap body with
          | .error e => .error ("error unmarshaling build info: " ++ e)
          | .ok fields =>
            match lookupFirst fields "buildInfo" with
            | some (.obj buildInfoObj) =>
              let principalData : BuildPrincipal := ⟨principal⟩
              let mutated := mapInsert buildInfoObj "principal" (.str principalData.Principal)
              let updatedBody := jsonSerialize (.obj mutated)
              let putURL := sanitized ++ "/api/build"
              match setAuthHeaders args with
              | .error e => .error e
              | .ok _ =>
                match putResp with
                | .netError m => .error ("error executing update request: " ++ m)
                | .response st2 _ =>
                  if st2 ≠ 200 ∧ st2 ≠ 204 ∧ st2 ≠ 201 then
                    .error ("API PUT request failed with status: " ++ toString st2 ++
                      " - check logs for details")
                  else
                    .ok ⟨apiURL, ⟨putURL, "application/json", updatedBody⟩⟩
            | _ => .error "buildInfo not found or has unexpected format"

/-- A configuration pointing at a host with an artifactory path, with an
access token, used to evaluate the reconciliation functions. -/
def argsReconcile : Args :=
  { URL := "https://host/artifactory", BuildName := "b", BuildNumber := "42",
    AccessToken := "t" }

/-- A fetched build info body holding a buildInfo object with the
matching build number. -/
def bodyReconcile : String :=
  "\x7b\"buildInfo\":\x7b\"number\":\"42\"\x7d\x7d"

/-- A configuration carrying both an access token and a username with
password, used to compare the two authentication builders. -/
def argsTokenUserPass : Args :=
  { AccessToken := "t", Username := "u", Password := "p" }

/-- C2 counterexample: with both an access token and username with
password configured, the HTTP header builder uses the bearer token but
the CLI argument builder emits user and password flags and no access
token flag, so the two builders do not follow one precedence order and
the token is not used by the CLI path. -/
theorem claim_C2_counterexample :
    setAuthHeaders argsTokenUserPass = .ok (.bearer "t") ∧
    setAuthParams [] argsTokenUserPass = (["--user=u", "--password=p"], none) ∧
    ¬ "--access-token=t" ∈ (setAuthParams [] argsTokenUserPass).1 := by
  refine ⟨rfl, rfl, by decide⟩

/-- C2 amended: the HTTP header builder setAuthHeaders follows the
precedence access token, then username plus API key as password, then
username plus password, else it refuses with a no authentication method
provided error; the CLI argument builder setAuthParams follows the
reverse precedence, username plus password first, then username plus API
key, then access token, appends nothing when no method is configured,
and never returns an error. -/
theorem claim_C2_amended : ∀ (args : Args) (l : List String),
    (args.AccessToken ≠ "" → setAuthHeaders args = .ok (.bearer args.AccessToken)) ∧
    (args.AccessToken = "" → args.APIKey ≠ "" → args.Username ≠ "" →
      setAuthHeaders args = .ok (.basic args.Username args.APIKey)) ∧
    (args.AccessToken = "" → ¬(args.APIKey ≠ "" ∧ args.Username ≠ "") →
      args.Username ≠ "" → args.Password ≠ "" →
      setAuthHeaders args = .ok (.basic args.Username args.Password)) ∧
    (args.AccessToken = "" → ¬(args.APIKey ≠ "" ∧ args.Username ≠ "") →
      ¬(args.Username ≠ "" ∧ args.Password ≠ "") →
      setAuthHeaders args = .error "no authentication method provided") ∧
    (args.Username ≠ "" → args.Password ≠ "" →
      (setAuthParams l args).1 =
        l ++ ["--user=" ++ args.Username, "--password=" ++ args.Password]) ∧
    (¬(args.Username ≠ "" ∧ args.Password ≠ "") → args.APIKey ≠ "" → args.Username ≠ "" →
      (setAuthParams l args).1 =
        l ++ ["--user=" ++ args.Username, "--password=" ++ args.APIKey]) ∧
    (¬(args.Username ≠ "" ∧ args.Password ≠ "") → ¬(args.APIKey ≠ "" ∧ args.Username ≠ "") →
      args.AccessToken ≠ "" →
      (setAuthParams l args).1 = l ++ ["--access-token=" ++ args.AccessToken]) ∧
    (¬(args.Username ≠ "" ∧ args.Password ≠ "") → ¬(args.APIKey ≠ "" ∧ args.Username ≠ "") →
      args.AccessToken = "" → setAuthParams l args = (l, none)) ∧
    (setAuthParams l args).2 = none := by
  intro args l
  refine ⟨?_, ?_, ?_, ?_, ?_, ?_, ?_, ?_, ?_⟩
  · intro h1; simp [setAuthHeaders, h1]
  · intro h1 h2 h3; simp [setAuthHeaders, h1, h2, h3]
  · intro h1 h2 h3 h4
    have hk : args.APIKey = "" := by
      by_contra hk; exact h2 ⟨hk, h3⟩
    simp [setAuthHeaders, h1, hk, h3, h4]
  · intro h1 h2 h3; simp [setAuthHeaders, h1, h2, h3]
  · intro h1 h2; simp [setAuthParams, h1, h2]
  · intro h1 h2 h3
    have hp : args.Password = "" := by
      by_contra hp; exact h1 ⟨h3, hp⟩
    simp [setAuthParams, h1, h2, h3, hp]
  · intro h1 h2 h3; simp [setAuthParams, h1, h2, h3]
  · intro h1 h2 h3; simp [setAuthParams, h1, h2, h3]
  · unfold setAuthParams
    split
    · rfl
    · split
      · rfl
      · split <;> rfl

/-- C2 witness: the amended statement evaluated on the configuration that
carries an access token, a username and a password. -/
theorem claim_C2_witness :
    setAuthHeaders argsTokenUserPass = .ok (.bearer argsTokenUserPass.AccessToken) ∧
    (setAuthParams [] argsTokenUserPass).1 =
      [] ++ ["--user=" ++ argsTokenUserPass.Username,
             "--password=" ++ argsTokenUserPass.Password] :=
  ⟨(claim_C2_amended argsTokenUserPass []).1 (by decide),
   (claim_C2_amended argsTokenUserPass []).2.2.2.2.1 (by decide) (by decide)⟩

/-- C1 counterexample: in the polling loop with the 30 second deadline,
the reachable state with 27 seconds elapsed and a 5 second backoff
performs its full 5 second sleep, ending at 32 seconds, and proceeds to
next-attempt scheduling (the backoff update and a new iteration) rather
than being cut short at the deadline, so it is false that every sleep
started before the deadline ends within it. -/
theorem claim_C1_counterexample :
    pollRun 30 (List.replicate 7 false) ⟨0, 1⟩ = .next ⟨27, 5⟩ ∧
    pollIter 30 ⟨27, 5⟩ false = .next ⟨32, 5⟩ ∧
    ¬ (∀ (s s2 : PollState) (c : Bool),
        pollIter 30 s c = .next s2 → s.elapsed < 30 → s2.elapsed ≤ 30) := by
  refine ⟨by decide, by decide, fun h => ?_⟩
  exact absurd (h ⟨27, 5⟩ ⟨32, 5⟩ false (by decide) (by decide)) (by decide)

/-- C1 amended: the reconciliation deadline is observed only at the top
of each polling iteration, where an exceeded deadline aborts with a
timeout; a not-yet-visible attempt always sleeps its full backoff
(time.Sleep does not observe the context) and performs the backoff
update, so a run of failing attempts overruns the 30 second deadline to
32 seconds before the timeout is reported on the following iteration.
HTTP calls observe the deadline through the request context. -/
theorem claim_C1_amended :
    (∀ (d : Nat) (s : PollState) (c : Bool),
      d ≤ s.elapsed → pollIter d s c = .exit .timedOut) ∧
    (∀ (d : Nat) (s : PollState), s.elapsed < d →
      pollIter d s false = .next ⟨s.elapsed + s.backoff, nextBackoff s.backoff⟩) ∧
    pollRun 30 (List.replicate 8 false) ⟨0, 1⟩ = .next ⟨32, 5⟩ ∧
    pollRun 30 (List.replicate 9 false) ⟨0, 1⟩ = .exit .timedOut := by
  refine ⟨?_, ?_, by decide, by decide⟩
  · intro d s c h; simp [pollIter, h]
  · intro d s h; simp [pollIter, Nat.not_le.mpr h]

/-- C1 witness: the amended statement evaluated at the state past the
deadline and at the state just before it. -/
theorem claim_C1_witness :
    pollIter 30 ⟨32, 5⟩ false = .exit .timedOut ∧
    pollIter 30 ⟨27, 5⟩ false = .next ⟨27 + 5, nextBackoff 5⟩ :=
  ⟨claim_C1_amended.1 30 ⟨32, 5⟩ false (by decide),
   claim_C1_amended.2.1 30 ⟨27, 5⟩ (by decide)⟩

/-- C7: each failed attempt sleeps the current backoff and the backoff is
then doubled and capped at 5 seconds; starting from 1 second the backoff
sequence is 1, 2, 4 and then 5 forever, and the sleeps actually performed
by a run of failing attempts under the 30 second deadline are
1, 2, 4, 5, 5, 5, 5, 5. -/
theorem claim_C7 :
    (∀ (d : Nat) (s : PollState), s.elapsed < d →
      pollIter d s false = .next ⟨s.elapsed + s.backoff, nextBackoff s.backoff⟩) ∧
    backoffSeq 0 = 1 ∧ backoffSeq 1 = 2 ∧ backoffSeq 2 = 4 ∧
    (∀ n : Nat, backoffSeq (n + 3) = 5) ∧
    pollSleeps 30 (List.replicate 8 false) ⟨0, 1⟩ = [1, 2, 4, 5, 5, 5, 5, 5] := by
  refine ⟨?_, by decide, by decide, by decide, ?_, by decide⟩
  · intro d s h; simp [pollIter, Nat.not_le.mpr h]
  · intro n
    induction n with
    | zero => decide
    | succ k ih =>
      have hstep : backoffSeq (k + 1 + 3) = nextBackoff (backoffSeq (k + 3)) := rfl
      rw [hstep, ih]; decide

/-- C7 witness: the first conjunct evaluated at the initial state, and
the steady 5 second backoff at index 5. -/
theorem claim_C7_witness :
    pollIter 30 ⟨0, 1⟩ false = .next ⟨0 + 1, nextBackoff 1⟩ ∧ backoffSeq (2 + 3) = 5 :=
  ⟨claim_C7.1 30 ⟨0, 1⟩ (by decide), claim_C7.2.2.2.2.1 2⟩

/-- C9: whatever the poll and update results are, the principal phase of
Exec returns nil (success), and the principal update is attempted exactly
when a build trigger is present and polling succeeded; in particular
after a polling timeout the update is never attempted. -/
theorem claim_C9 : ∀ (t : String) (p a : Option String),
    (execPrincipalPhase t p a).1 = none ∧
    ((execPrincipalPhase t p a).2 = true ↔ (t ≠ "" ∧ p = none)) := by
  intro t p a
  by_cases ht : t = "" <;> cases p <;> cases a <;> simp [execPrincipalPhase, ht]

/-- C10: setAuthParams never returns a non-nil error, and on a
configuration with no access token, no API key and no username or
password it returns the argument list unchanged. -/
theorem claim_C10 :
    (∀ (l : List String) (args : Args), (setAuthParams l args).2 = none) ∧
    (∀ l : List String, setAuthParams l {} = (l, none)) := by
  constructor
  · intro l args
    unfold setAuthParams
    split
    · rfl
    · split
      · rfl
      · split <;> rfl
  · intro l; rfl

/-- C3: the happy paths hold, with a dotted first segment the repository
is the second segment and the image name the remaining segments joined,
and without one the first segment is the repository; but the claimed
input errors do not happen in src/main.go: a missing colon or a dotted
single segment path panics at run time, and a colon bearing reference
with a single path segment returns with a nil error; the older variant in
src/unnamed/part_000 returns the claimed input errors for the same
inputs. -/
theorem claim_C3 :
    parseDockerImage "host.example.com/repo/name:tag" = .ret "repo" "name" "tag" none ∧
    parseDockerImage "repo/name:tag" = .ret "repo" "name" "tag" none ∧
    parseDockerImage "my.registry.io/repo/path/name:v1" = .ret "repo" "path/name" "v1" none ∧
    parseDockerImage "repo:tag" = .ret "repo" "" "tag" none ∧
    parseDockerImage "noColonImage" = .panicked ∧
    parseDockerImage "a.b.c:tag" = .panicked ∧
    parseDockerImage_v0 "repo:tag" = .error "invalid Docker image format: repo:tag" ∧
    parseDockerImage_v0 "noColonImage" = .error "invalid Docker image format: noColonImage" ∧
    parseDockerImage_v0 "host.example.com/repo/name:tag" = .ok ("repo", "name", "tag") :=
  ⟨rfl, rfl, rfl, rfl, rfl, rfl, rfl, rfl, rfl⟩

/-- C4: the positive part holds, a path containing /artifactory is
truncated after its first occurrence; but the claimed failures do not
happen in src/main.go: a URL with no /artifactory in its path gets
/artifactory/ appended and a nil error, and a URL with empty scheme and
host is also passed through with a nil error; the older variant in
src/unnamed/part_000 returns the claimed errors for the same inputs. -/
theorem claim_C4 :
    sanitizeURL "https://host/x/artifactory/y/z" = ("https://host/x/artifactory/", none) ∧
    sanitizeURL "https://host/x" = ("https://host/x/artifactory/", none) ∧
    sanitizeURL "host/x" = ("host/x/artifactory/", none) ∧
    sanitizeURL_v0 "https://host/x/artifactory/y/z" = .ok "https://host/x/artifactory/" ∧
    sanitizeURL_v0 "https://host/x" =
      .error "url does not contain /artifactory: https://host/x" ∧
    sanitizeURL_v0 "host/x/artifactory/y" = .error "invalid URL: host/x/artifactory/y" :=
  ⟨rfl, rfl, rfl, rfl, rfl, rfl⟩

/-- C5: with an authentication method available, a poll attempt reports
the build info visible exactly when the response has status 200 and a
body parsing as JSON whose payload holds a buildInfo object with a number
field string equal to the expected build number; and a failed attempt
inside the deadline makes the loop sleep and retry. -/
theorem claim_C5 : ∀ (args : Args) (resp : HTTPResult) (a : AuthHeader),
    setAuthHeaders args = .ok a →
    ((checkBuildInfoExists args resp = .ok () ↔ pollVisibleSpec args resp) ∧
     (∀ (d : Nat) (s : PollState), s.elapsed < d →
        pollIter d s false = .next ⟨s.elapsed + s.backoff, nextBackoff s.backoff⟩)) := by
  intro args resp a ha
  refine ⟨?_, fun d s h => by simp [pollIter, Nat.not_le.mpr h]⟩
  cases resp with
  | netError m => simp [checkBuildInfoExists, ha, pollVisibleSpec]
  | response st body =>
    by_cases h200 : st = 200
    · subst h200
      cases hj : jsonParse body with
      | none => simp [checkBuildInfoExists, ha, unmarshalToMap, pollVisibleSpec, hj]
      | some j =>
        cases j with
        | null =>
          simp [checkBuildInfoExists, ha, unmarshalToMap, pollVisibleSpec, jGet, hj,
            lookupFirst]
        | bool b => simp [checkBuildInfoExists, ha, unmarshalToMap, pollVisibleSpec, jGet, hj]
        | num lit => simp [checkBuildInfoExists, ha, unmarshalToMap, pollVisibleSpec, jGet, hj]
        | str s => simp [checkBuildInfoExists, ha, unmarshalToMap, pollVisibleSpec, jGet, hj]
        | arr xs => simp [checkBuildInfoExists, ha, unmarshalToMap, pollVisibleSpec, jGet, hj]
        | obj fs =>
          cases hbi : lookupFirst fs "buildInfo" with
          | none =>
            simp [checkBuildInfoExists, ha, unmarshalToMap, pollVisibleSpec, jGet, hj, hbi]
          | some bj =>
            cases bj with
            | obj bfs =>
              cases hnum : lookupFirst bfs "number" with
              | none =>
                simp [checkBuildInfoExists, ha, unmarshalToMap, pollVisibleSpec, jGet, hj,
                  hbi, hnum]
              | some nv =>
                cases nv with
                | str n =>
                  by_cases hn : n = args.BuildNumber <;>
                    simp [checkBuildInfoExists, ha, unmarshalToMap, pollVisibleSpec, jGet,
                      hj, hbi, hnum, hn]
                | null =>
                  simp [checkBuildInfoExists, ha, unmarshalToMap, pollVisibleSpec, jGet, hj,
                    hbi, hnum]
                | bool b =>
                  simp [checkBuildInfoExists, ha, unmarshalToMap, pollVisibleSpec, jGet, hj,
                    hbi, hnum]
                | num lit =>
                  simp [checkBuildInfoExists, ha, unmarshalToMap, pollVisibleSpec, jGet, hj,
                    hbi, hnum]
                | arr xs =>
                  simp [checkBuildInfoExists, ha, unmarshalToMap, pollVisibleSpec, jGet, hj,
                    hbi, hnum]
                | obj fs2 =>
                  simp [checkBuildInfoExists, ha, unmarshalToMap, pollVisibleSpec, jGet, hj,
                    hbi, hnum]
            | null =>
              simp [checkBuildInfoExists, ha, unmarshalToMap, pollVisibleSpec, jGet, hj, hbi]
            | bool b =>
              simp [checkBuildInfoExists, ha, unmarshalToMap, pollVisibleSpec, jGet, hj, hbi]
            | num lit =>
              simp [checkBuildInfoExists, ha, unmarshalToMap, pollVisibleSpec, jGet, hj, hbi]
            | str s =>
              simp [checkBuildInfoExists, ha, unmarshalToMap, pollVisibleSpec, jGet, hj, hbi]
            | arr xs =>
              simp [checkBuildInfoExists, ha, unmarshalToMap, pollVisibleSpec, jGet, hj, hbi]
    · simp [checkBuildInfoExists, ha, pollVisibleSpec, h200]

/-- C5 witness: the criterion evaluated on the matching response with the
token bearing configuration, and the retry step at the initial state. -/
theorem claim_C5_witness :
    (checkBuildInfoExists argsReconcile (.response 200 bodyReconcile) = .ok () ↔
      pollVisibleSpec argsReconcile (.response 200 bodyReconcile)) ∧
    pollIter 30 ⟨0, 1⟩ false = .next ⟨0 + 1, nextBackoff 1⟩ := by
  have h := claim_C5 argsReconcile (.response 200 bodyReconcile) (.bearer "t") rfl
  exact ⟨h.1, h.2 30 ⟨0, 1⟩ (by decide)⟩

/-- C6: when the fetch succeeds with a payload holding a buildInfo
object, the reconciler PUTs the mutated buildInfo object alone (the
principal field set, every other field exactly as fetched) to the
api/build endpoint with the JSON content type, over the same resource URL
the poll uses for its GET; statuses 200, 204 and 201 are accepted and any
other status is a reported error; a payload without a buildInfo object
fails with the shape error. -/
theorem claim_C6 :
    (∀ (args : Args) (principal body pbody : String) (a : AuthHeader)
        (fields bfs : List (String × Json)) (st : Nat),
      setAuthHeaders args = .ok a →
      unmarshalToMap body = .ok fields →
      lookupFirst fields "buildInfo" = some (.obj bfs) →
      addPrincipalToBuildInfo args principal (.response 200 body) (.response st pbody) =
        (if st = 200 ∨ st = 204 ∨ st = 201 then
          .ok ⟨pollApiURL args,
               ⟨trimSlashSuffix (sanitizeURL args.URL).1 ++ "/api/build", "application/json",
                jsonSerialize (.obj (mapInsert bfs "principal" (.str principal)))⟩⟩
         else
          .error ("API PUT request failed with status: " ++ toString st ++
            " - check logs for details"))) ∧
    (∀ (bfs : List (String × Json)) (principal k : String), k ≠ "principal" →
      lookupFirst (mapInsert bfs "principal" (.str principal)) k = lookupFirst bfs k) ∧
    (∀ (args : Args) (principal body : String) (putResp : HTTPResult) (a : AuthHeader)
        (fields : List (String × Json)),
      setAuthHeaders args = .ok a →
      unmarshalToMap body = .ok fields →
      (∀ bfs, lookupFirst fields "buildInfo" ≠ some (.obj bfs)) →
      addPrincipalToBuildInfo args principal (.response 200 body) putResp =
        .error "buildInfo not found or has unexpected format") := by
  refine ⟨?_, ?_, ?_⟩
  · intro args principal body pbody a fields bfs st ha hum hbi
    obtain ⟨s1, hs1⟩ : ∃ s1, sanitizeURL args.URL = (s1, none) :=
      ⟨(sanitizeURL args.URL).1, rfl⟩
    have hfst : (sanitizeURL args.URL).1 = s1 := by rw [hs1]
    by_cases hst : st = 200 ∨ st = 204 ∨ st = 201
    · have hneg : ¬(st ≠ 200 ∧ st ≠ 204 ∧ st ≠ 201) := by tauto
      simp [addPrincipalToBuildInfo, hs1, hfst, ha, hum, hbi, pollApiURL, hst, hneg]
    · push_neg at hst
      simp [addPrincipalToBuildInfo, hs1, hfst, ha, hum, hbi, pollApiURL,
        hst.1, hst.2.1, hst.2.2]
  · intro bfs principal k hk
    induction bfs with
    | nil => simp [mapInsert, lookupFirst, Ne.symm hk]
    | cons hd tl ih =>
      obtain ⟨k0, v0⟩ := hd
      by_cases hk0 : k0 = "principal"
      · subst hk0
        simp [mapInsert, lookupFirst, Ne.symm hk]
      · simp only [mapInsert, if_neg hk0]
        by_cases hkk : k0 = k
        · simp [lookupFirst, hkk]
        · simp [lookupFirst, hkk, ih]
  · intro args principal body putResp a fields ha hum hnotbi
    obtain ⟨s1, hs1⟩ : ∃ s1, sanitizeURL args.URL = (s1, none) :=
      ⟨(sanitizeURL args.URL).1, rfl⟩
    cases hbi : lookupFirst fields "buildInfo" with
    | none => simp [addPrincipalToBuildInfo, hs1, ha, hum, hbi]
    | some bj =>
      cases bj with
      | obj bfs => exact absurd hbi (hnotbi bfs)
      | null => simp [addPrincipalToBuildInfo, hs1, ha, hum, hbi]
      | bool b => simp [addPrincipalToBuildInfo, hs1, ha, hum, hbi]
      | num lit => simp [addPrincipalToBuildInfo, hs1, ha, hum, hbi]
      | str s => simp [addPrincipalToBuildInfo, hs1, ha, hum, hbi]
      | arr xs => simp [addPrincipalToBuildInfo, hs1, ha, hum, hbi]

/-- C6 witness: the reconciler evaluated on a concrete configuration,
fetched payload and accepted PUT status. -/
theorem claim_C6_witness :
    addPrincipalToBuildInfo argsReconcile "alice" (.response 200 bodyReconcile)
        (.response 200 "") =
      .ok ⟨"https://host/artifactory/api/build/b/42",
           ⟨"https://host/artifactory/api/build", "application/json",
            "\x7b\"number\":\"42\",\"principal\":\"alice\"\x7d"⟩⟩ :=
  (claim_C6.1 argsReconcile "alice" bodyReconcile "" (.bearer "t")
      [("buildInfo", Json.obj [("number", Json.str "42")])] [("number", Json.str "42")] 200
      rfl rfl rfl).trans rfl

/-- C8: lines before the first line beginning with the array opener are
discarded, output with no such line fails with the no JSON error, banner
lines followed by an artifact array yield the first sha256, an empty
array is the empty result error, malformed JSON propagates a parse
error, and only the first record is consulted. -/
theorem claim_C8 :
    (∀ (l : List Char) (ls : List (List Char)), lineStartsBracket l = false →
      extractFromLines (l :: ls) = extractFromLines ls) ∧
    (∀ ls : List (List Char), (∀ l ∈ ls, lineStartsBracket l = false) →
      extractFromLines ls = .error "could not find JSON output in the command response") ∧
    extractSha256FromOutput "banner line\nsecond line\n[\x7b\"sha256\":\"abc123\"\x7d]" =
      .ok "abc123" ∧
    extractSha256FromOutput "noise\n[]" = .error "no artifacts found in JFrog output" ∧
    extractSha256FromOutput "no json here" =
      .error "could not find JSON output in the command response" ∧
    extractSha256FromOutput "[\x7b" = .error "error parsing JSON: invalid JSON" ∧
    extractSha256FromOutput "[\x7b\"sha256\":\"first\"\x7d,\x7b\"sha256\":\"second\"\x7d]" =
      .ok "first" := by
  refine ⟨?_, ?_, rfl, rfl, rfl, rfl, rfl⟩
  · intro l ls h
    simp [extractFromLines, firstJsonSuffix, h]
  · intro ls h
    induction ls with
    | nil => rfl
    | cons l rest ih =>
      have hl : lineStartsBracket l = false := h l (List.mem_cons_self l rest)
      have hrest := ih (fun x hx => h x (List.mem_cons_of_mem l hx))
      calc extractFromLines (l :: rest) = extractFromLines rest := by
            simp [extractFromLines, firstJsonSuffix, hl]
        _ = _ := hrest

/-- C8 witness: the two general conjuncts evaluated on concrete line
lists. -/
theorem claim_C8_witness :
    extractFromLines [['x'], "[]".data] = extractFromLines ["[]".data] ∧
    extractFromLines [['x'], ['y']] =
      .error "could not find JSON output in the command response" :=
  ⟨claim_C8.1 ['x'] ["[]".data] rfl,
   claim_C8.2.1 [['x'], ['y']]
     (by intro l hl; simp at hl; rcases hl with h | h <;> subst h <;> rfl)⟩

end DroneBuildInfo
